import Mathlib

/-!
Shallow embedding of the onboarding wizard and admin dashboard logic of
`src/pages/Index.tsx` (plus its admin-dashboard half), together with
theorems settling the frozen claims about that code.

Conventions of the embedding:
* JavaScript strings become `String`; JS string truthiness (`""` falsy,
  everything else truthy) is made explicit as `≠ ""` / `== ""` tests.
* JS numbers that the code only compares with integer bounds become `Int`
  (the eligibility capacity) or `Nat` (counters and indices that the UI
  keeps non-negative).
* Nullable / possibly-`undefined` values become `Option`.
* Asynchronous backend calls are modelled by passing their outcome
  (success / failure) as an explicit boolean argument and recording the
  issued calls in the returned value.
-/

namespace LopeOnboard

/-! ### Eligibility predicate (`eligibilityStatus`, Index.tsx lines 577-588) -/

/-- Result of the reactive eligibility computation: the `ok` flag and the
rejection reason surfaced in the eligibility modal (`none` when eligible,
matching the source's `{ ok: true }` object that carries no `reason`). -/
structure EligStatus where
  ok : Bool
  reason : Option String
deriving Repr, DecidableEq

/-- `eligibilityStatus` from Index.tsx:
`if (ownsVehicle !== "yes") return { ok: false, reason: "Reject: Driver only not allowed" };`
`if (!(eligCap >= 1 && eligCap <= 15)) return { ok: false, reason: "Reject: Invalid truck size" };`
`if (hasDocs !== "yes") return { ok: false, reason: "Reject: Missing roadworthy or insurance" };`
`return { ok: true };` -/
def eligibilityStatus (ownsVehicle : String) (eligCap : Int) (hasDocs : String) : EligStatus :=
  if ownsVehicle ≠ "yes" then
    { ok := false, reason := some "Reject: Driver only not allowed" }
  else if ¬ (eligCap ≥ 1 ∧ eligCap ≤ 15) then
    { ok := false, reason := some "Reject: Invalid truck size" }
  else if hasDocs ≠ "yes" then
    { ok := false, reason := some "Reject: Missing roadworthy or insurance" }
  else
    { ok := true, reason := none }

/-- C1: `eligibilityStatus.ok` is true iff ownership = "yes" AND capacity ∈ [1,15]
AND documents = "yes"; when not ok the surfaced reason is that of the first
failing rule in the order ownership, capacity, documents (short-circuit), so in
particular for ownership = "no" the reason is "Reject: Driver only not allowed"
regardless of the other two fields. -/
theorem eligibilityStatus_ok_iff_and_first_failing_reason
    (o : String) (c : Int) (d : String) :
    ((eligibilityStatus o c d).ok = true ↔ (o = "yes" ∧ 1 ≤ c ∧ c ≤ 15 ∧ d = "yes"))
    ∧ (o ≠ "yes" →
        (eligibilityStatus o c d).reason = some "Reject: Driver only not allowed")
    ∧ (o = "yes" → ¬ (1 ≤ c ∧ c ≤ 15) →
        (eligibilityStatus o c d).reason = some "Reject: Invalid truck size")
    ∧ (o = "yes" → (1 ≤ c ∧ c ≤ 15) → d ≠ "yes" →
        (eligibilityStatus o c d).reason = some "Reject: Missing roadworthy or insurance") := by
  unfold eligibilityStatus
  split_ifs with h1 h2 h3 <;>
    simp_all [ge_iff_le, and_comm]

/-- Witness for the hypothesis-bearing parts of C1: with ownership "no",
out-of-range capacity 20 and documents "no", the surfaced reason is the
driver-only rejection (the first failing rule). -/
theorem eligibilityStatus_ok_iff_and_first_failing_reason_witness :
    (eligibilityStatus "no" 20 "no").reason = some "Reject: Driver only not allowed" :=
  (eligibilityStatus_ok_iff_and_first_failing_reason "no" 20 "no").2.1 (by decide)

/-! ### Trucks and the wizard state machine (Index.tsx lines 474-666) -/

/-- One entry of the `trucks` array of the form values
(`{ vehicleType: string, loadCapacity: number, registrationNumber: string }`). -/
structure Truck where
  vehicleType : String
  loadCapacity : Int
  registrationNumber : String
deriving Repr, DecidableEq

/-- The blank default truck pushed by the resize effect and used in
`defaultValues`: `{ vehicleType: "", loadCapacity: 1, registrationNumber: "" }`. -/
def blankTruck : Truck :=
  { vehicleType := "", loadCapacity := 1, registrationNumber := "" }

/-- The `steps` array of the wizard (its titles); only its length matters for
the step-index arithmetic. -/
def stepsTitles : List String :=
  ["Eligibility", "Basic Info", "Vehicle", "Banking", "Terms"]

/-- Client-held wizard component state relevant to step transitions:
`useState` hooks `step`, `showEligibilityModal`, `currentTruckIndex`. -/
structure WizardState where
  step : Nat
  showEligibilityModal : Bool
  currentTruckIndex : Nat
deriving Repr, DecidableEq

/-- Snapshot of the form values that `goNext` consults, together with the
outcome of the asynchronous `trigger(fieldsByStep[step])` validation call
(modelled as a boolean input, since `goNext` only branches on it).
`vehicleDocuments` is the length of the uploaded-documents array. -/
structure FormSnapshot where
  ownsVehicle : String
  eligibilityCapacityTons : Int
  hasRequiredDocs : String
  numberOfTrucks : Nat
  trucks : List Truck
  vehicleDocuments : Nat
  triggerValid : Bool
deriving Repr, DecidableEq

/-- The incomplete-truck test of `goNext`'s step-2 special validation:
`!truck.vehicleType || !truck.registrationNumber` (JS string truthiness). -/
def truckMissingFields (t : Truck) : Bool :=
  t.vehicleType == "" || t.registrationNumber == ""

/-- Indices collected by the `for` loop of `goNext`'s step-2 special
validation (0-based; the source stores `i + 1` and subtracts 1 again before
use, which cancels out). -/
def incompleteTruckIdxs (ts : List Truck) : List Nat :=
  (List.range ts.length).filter (fun i => truckMissingFields (ts.getD i blankTruck))

/-- `goNext` from Index.tsx, as a transition on `WizardState`:
1. on step 2, return early if the trucks array length disagrees with the
   counter, if some truck is incomplete (switching the viewed index to the
   first incomplete one), or if no documents are uploaded;
2. return early if `trigger` reports the current step's fields invalid;
3. on step 0, if `eligibilityStatus.ok` is false, open the eligibility modal
   and return without advancing;
4. otherwise `setStep(s => Math.min(s + 1, steps.length - 1))`. -/
def goNext (st : WizardState) (f : FormSnapshot) : WizardState :=
  if st.step = 2 ∧ f.trucks.length ≠ f.numberOfTrucks then st
  else if st.step = 2 ∧ incompleteTruckIdxs f.trucks ≠ [] then
    { st with currentTruckIndex := (incompleteTruckIdxs f.trucks).headD 0 }
  else if st.step = 2 ∧ f.vehicleDocuments = 0 then st
  else if ¬ f.triggerValid then st
  else if st.step = 0 ∧
      (eligibilityStatus f.ownsVehicle f.eligibilityCapacityTons f.hasRequiredDocs).ok = false then
    { st with showEligibilityModal := true }
  else { st with step := min (st.step + 1) (stepsTitles.length - 1) }

/-- C2: whenever the current step is the eligibility step (step 0) and the
eligibility predicate's `ok` field is false, `goNext` leaves the step index
unchanged, for every combination of the three eligibility inputs and every
validation outcome. -/
theorem goNext_ineligible_keeps_step (st : WizardState) (f : FormSnapshot)
    (hstep : st.step = 0)
    (hok : (eligibilityStatus f.ownsVehicle f.eligibilityCapacityTons f.hasRequiredDocs).ok = false) :
    (goNext st f).step = st.step := by
  unfold goNext
  split_ifs with h1 h2 h3 h4 h5 <;> simp_all

/-- Witness for C2: a concrete ineligible snapshot (ownership "no") at step 0
with passing field validation does not advance the wizard. -/
theorem goNext_ineligible_keeps_step_witness :
    (goNext { step := 0, showEligibilityModal := false, currentTruckIndex := 0 }
        { ownsVehicle := "no", eligibilityCapacityTons := 5, hasRequiredDocs := "yes",
          numberOfTrucks := 1, trucks := [blankTruck], vehicleDocuments := 0,
          triggerValid := true }).step
      = ({ step := 0, showEligibilityModal := false, currentTruckIndex := 0 } : WizardState).step :=
  goNext_ineligible_keeps_step _ _ (by decide) (by decide)

/-! ### Trucks-array resize effect (Index.tsx lines 549-575) -/

/-- The `useEffect` that keeps the `trucks` array in sync with the
`numberOfTrucks` counter, returning the new trucks array and the new
currently-viewed truck index:
`if (numberOfTrucks && trucks)` (a counter of 0 is falsy: nothing happens);
growing pushes blank trucks up to the counter, shrinking does
`currentTrucks.splice(numberOfTrucks)` (keep the first `numberOfTrucks`);
then `if (currentTruckIndex >= numberOfTrucks) setCurrentTruckIndex(0)`. -/
def trucksResizeEffect (numberOfTrucks : Nat) (trucks : List Truck)
    (currentTruckIndex : Nat) : List Truck × Nat :=
  if numberOfTrucks = 0 then (trucks, currentTruckIndex)
  else
    ((if numberOfTrucks > trucks.length then
        trucks ++ List.replicate (numberOfTrucks - trucks.length) blankTruck
      else if numberOfTrucks < trucks.length then
        trucks.take numberOfTrucks
      else trucks),
     if currentTruckIndex ≥ numberOfTrucks then 0 else currentTruckIndex)

/-- C3: for every trucks array and every counter value n ≥ 1 (the
number-of-trucks counter is kept ≥ 1 by its schema and UI controls), the
resize produces an array of length n; entries below the old length are the
original entries unchanged; entries at or above the old length are the blank
default; and when n is at most the old length the result is exactly the first
n original entries. -/
theorem trucksResizeEffect_spec (trucks : List Truck) (n idx : Nat) (hn : 1 ≤ n) :
    ((trucksResizeEffect n trucks idx).1.length = n)
    ∧ (∀ i, i < n → i < trucks.length →
        (trucksResizeEffect n trucks idx).1.getD i blankTruck = trucks.getD i blankTruck)
    ∧ (∀ i, i < n → trucks.length ≤ i →
        (trucksResizeEffect n trucks idx).1.getD i blankTruck = blankTruck)
    ∧ (n ≤ trucks.length → (trucksResizeEffect n trucks idx).1 = trucks.take n) := by
  have hn0 : ¬ n = 0 := by omega
  have h1 : (trucksResizeEffect n trucks idx).1 =
      (if n > trucks.length then
        trucks ++ List.replicate (n - trucks.length) blankTruck
      else if n < trucks.length then trucks.take n else trucks) := by
    unfold trucksResizeEffect
    rw [if_neg hn0]
  by_cases hgt : n > trucks.length
  · rw [h1, if_pos hgt]
    refine ⟨?_, ?_, ?_, ?_⟩
    · simp only [List.length_append, List.length_replicate]; omega
    · intro i _ hi₂
      simp [List.getD, List.getElem?_append_left hi₂]
    · intro i hi₁ hi₂
      have hrep : i - trucks.length < n - trucks.length := by omega
      simp [List.getD, List.getElem?_append_right hi₂, List.getElem?_replicate_of_lt hrep]
    · intro hle; omega
  · by_cases hlt : n < trucks.length
    · rw [h1, if_neg hgt, if_pos hlt]
      refine ⟨?_, ?_, ?_, fun _ => rfl⟩
      · simp only [List.length_take]; omega
      · intro i hi₁ _
        simp [List.getD, List.getElem?_take_of_lt hi₁]
      · intro i hi₁ hi₂; omega
    · have heq : n = trucks.length := by omega
      rw [h1, if_neg hgt, if_neg hlt]
      refine ⟨heq.symm, fun i _ _ => rfl, fun i hi₁ hi₂ => by omega, fun _ => ?_⟩
      rw [heq, List.take_length]

/-- A concrete filled-in truck used by witness theorems. -/
def sampleTruck : Truck :=
  { vehicleType := "Flatbed", loadCapacity := 8, registrationNumber := "CA123" }

/-- Witness for C3: resizing a one-truck array (with a filled-in first entry)
to 3 keeps the first entry and appends two blank defaults, and resizing a
three-truck array down to 1 keeps exactly the first entry. -/
theorem trucksResizeEffect_spec_witness :
    (1 ≤ 3 ∧ (trucksResizeEffect 3 [sampleTruck] 0).1.length = 3)
    ∧ (1 ≤ 1 ∧ (trucksResizeEffect 1 [sampleTruck, blankTruck, blankTruck] 0).1
        = [sampleTruck, blankTruck, blankTruck].take 1) :=
  ⟨⟨by decide, (trucksResizeEffect_spec [sampleTruck] 3 0 (by decide)).1⟩,
   ⟨by decide,
    (trucksResizeEffect_spec [sampleTruck, blankTruck, blankTruck] 1 0 (by decide)).2.2.2
      (by decide)⟩⟩

/-- C4: after a resize to n ≥ 1 entries (a counter of 0 never triggers the
effect body since 0 is falsy), the post-resize viewed index is a valid index
of the resized collection, and an index already in range [0, n-1] is left
unchanged. -/
theorem trucksResizeEffect_index_clamped (trucks : List Truck) (n idx : Nat) (hn : 1 ≤ n) :
    ((trucksResizeEffect n trucks idx).2 < (trucksResizeEffect n trucks idx).1.length)
    ∧ (idx < n → (trucksResizeEffect n trucks idx).2 = idx) := by
  have hlen : (trucksResizeEffect n trucks idx).1.length = n :=
    (trucksResizeEffect_spec trucks n idx hn).1
  have hn0 : n ≠ 0 := by omega
  constructor
  · rw [hlen]
    unfold trucksResizeEffect
    simp only [hn0, if_false]
    by_cases hge : idx ≥ n <;> simp [hge] <;> omega
  · intro hidx
    unfold trucksResizeEffect
    simp only [hn0, if_false]
    have : ¬ idx ≥ n := by omega
    simp [this]

/-- Witness for C4: resizing to 2 trucks with viewed index 5 yields a valid
index of the 2-element result, and an in-range index 1 is kept. -/
theorem trucksResizeEffect_index_clamped_witness :
    ((trucksResizeEffect 2 [blankTruck] 5).2 < (trucksResizeEffect 2 [blankTruck] 5).1.length)
    ∧ (trucksResizeEffect 2 [blankTruck] 1).2 = 1 :=
  ⟨(trucksResizeEffect_index_clamped [blankTruck] 2 5 (by decide)).1,
   (trucksResizeEffect_index_clamped [blankTruck] 2 1 (by decide)).2 (by decide)⟩

/-! ### Phone number validation (Index.tsx line 68)
`const PHONE_REGEX = /^(?:\+27|0)[1-9][0-9]{8}$/;`
applied to the `mobile` field by `z.string().regex(PHONE_REGEX, ...)`. -/

/-- The regex character class `[0-9]` (ASCII codepoints 48-57). -/
def isAsciiDigit (c : Char) : Bool :=
  48 ≤ c.toNat && c.toNat ≤ 57

/-- The regex character class `[1-9]` (ASCII codepoints 49-57). -/
def isNonZeroDigit (c : Char) : Bool :=
  49 ≤ c.toNat && c.toNat ≤ 57

/-- The suffix `[1-9][0-9]{8}$` of the phone regex: one digit 1-9 followed by
exactly eight digits 0-9, consuming the rest of the string. -/
def phoneTail : List Char → Bool
  | c :: rest => isNonZeroDigit c && rest.length == 8 && rest.all isAsciiDigit
  | [] => false

/-- The full anchored regex `^(?:\+27|0)[1-9][0-9]{8}$` on the character list:
the alternation `(?:\+27|0)` is deterministic on the first character since
`'+' ≠ '0'`. -/
def phoneChars : List Char → Bool
  | [] => false
  | c :: rest =>
    if c = '+' then
      match rest with
      | c2 :: c3 :: rest' => c2 == '2' && c3 == '7' && phoneTail rest'
      | _ => false
    else if c = '0' then phoneTail rest
    else false

/-- `PHONE_REGEX.test(s)`: whether the `mobile` field value validates. -/
def PHONE_REGEX_accepts (s : String) : Bool :=
  phoneChars s.data

theorem nonZeroDigit_isDigit {c : Char} (h : isNonZeroDigit c = true) :
    isAsciiDigit c = true := by
  simp only [isNonZeroDigit, isAsciiDigit, Bool.and_eq_true, decide_eq_true_eq] at *
  omega

theorem phoneTail_iff (t : List Char) :
    phoneTail t = true ↔
      (t.length = 9 ∧ isNonZeroDigit (t.headD '0') = true
        ∧ ∀ c ∈ t, isAsciiDigit c = true) := by
  cases t with
  | nil => simp [phoneTail]
  | cons c rest =>
    simp only [phoneTail, Bool.and_eq_true, beq_iff_eq, List.all_eq_true,
      List.length_cons, List.headD_cons, List.mem_cons]
    constructor
    · rintro ⟨⟨h1, h2⟩, h3⟩
      refine ⟨by omega, h1, ?_⟩
      rintro x (rfl | hx)
      · exact nonZeroDigit_isDigit h1
      · exact h3 x hx
    · rintro ⟨h1, h2, h3⟩
      exact ⟨⟨h2, by omega⟩, fun x hx => h3 x (Or.inr hx)⟩

theorem phoneChars_iff (l : List Char) :
    phoneChars l = true ↔
      ∃ t, (l = '+' :: '2' :: '7' :: t ∨ l = '0' :: t)
        ∧ t.length = 9 ∧ isNonZeroDigit (t.headD '0') = true
        ∧ ∀ c ∈ t, isAsciiDigit c = true := by
  cases l with
  | nil => simp [phoneChars]
  | cons c rest =>
    by_cases hplus : c = '+'
    · subst hplus
      cases rest with
      | nil =>
        simp only [show phoneChars ['+'] = false from rfl, Bool.false_eq_true, false_iff,
          not_exists]
        rintro t ⟨hl | hl, _⟩ <;> simp_all
      | cons c2 rest2 =>
        cases rest2 with
        | nil =>
          simp only [show phoneChars ['+', c2] = false from rfl, Bool.false_eq_true, false_iff,
            not_exists]
          rintro t ⟨hl | hl, _⟩ <;> simp_all
        | cons c3 rest3 =>
          have he : phoneChars ('+' :: c2 :: c3 :: rest3)
              = (c2 == '2' && c3 == '7' && phoneTail rest3) := rfl
          rw [he]
          simp only [Bool.and_eq_true, beq_iff_eq]
          constructor
          · rintro ⟨⟨rfl, rfl⟩, ht⟩
            exact ⟨rest3, Or.inl rfl, (phoneTail_iff rest3).mp ht⟩
          · rintro ⟨t, hl | hl, ht⟩
            · simp only [List.cons.injEq, true_and] at hl
              obtain ⟨rfl, rfl, rfl⟩ := hl
              exact ⟨⟨rfl, rfl⟩, (phoneTail_iff _).mpr ht⟩
            · simp only [List.cons.injEq] at hl
              exact absurd hl.1 (by decide)
    · by_cases hzero : c = '0'
      · subst hzero
        have he : phoneChars ('0' :: rest) = phoneTail rest := rfl
        rw [he, phoneTail_iff]
        constructor
        · intro h; exact ⟨rest, Or.inr rfl, h⟩
        · rintro ⟨t, hl | hl, ht⟩
          · simp only [List.cons.injEq] at hl
            exact absurd hl.1 (by decide)
          · simp only [List.cons.injEq, true_and] at hl
            subst hl
            exact ht
      · have he : phoneChars (c :: rest)
            = (if c = '+' then
                (match rest with
                 | c2 :: c3 :: rest' => c2 == '2' && c3 == '7' && phoneTail rest'
                 | _ => false)
              else if c = '0' then phoneTail rest else false) := rfl
        rw [he, if_neg hplus, if_neg hzero]
        simp only [Bool.false_eq_true, false_iff, not_exists]
        rintro t ⟨hl | hl, _⟩ <;> simp only [List.cons.injEq] at hl <;>
          [exact hplus hl.1; exact hzero hl.1]

/-- C5 counterexample: the bare 9-digit string "812345678" (nine digits, first
digit in 1-9, no prefix) is rejected by the phone validation, contradicting
the claim that such a string is accepted. -/
theorem phone_bare_nine_digits_rejected :
    ("812345678".data.length = 9
      ∧ isNonZeroDigit ("812345678".data.headD '0') = true
      ∧ ∀ c ∈ "812345678".data, isAsciiDigit c = true)
    ∧ PHONE_REGEX_accepts "812345678" = false := by
  constructor
  · refine ⟨by decide, by decide, by decide⟩
  · decide

/-- C5 amended: the mobile field validates iff the string is the mandatory
prefix "+27" or "0" followed by exactly 9 digits whose first digit is 1-9
(the prefix is not optional: a bare 9-digit national number is rejected). -/
theorem PHONE_REGEX_accepts_iff (s : String) :
    PHONE_REGEX_accepts s = true ↔
      ∃ t, (s.data = '+' :: '2' :: '7' :: t ∨ s.data = '0' :: t)
        ∧ t.length = 9 ∧ isNonZeroDigit (t.headD '0') = true
        ∧ ∀ c ∈ t, isAsciiDigit c = true :=
  phoneChars_iff s.data

/-! ### Truck completeness (`isTruckComplete`, Index.tsx lines 540-542) -/

/-- `isTruckComplete = (truck) => truck && truck.vehicleType && truck.registrationNumber`:
JS truthiness of a possibly-absent object and of its two string fields
(`""` is falsy), used as a boolean predicate. The load capacity is never read. -/
def isTruckComplete : Option Truck → Bool
  | none => false
  | some t => (t.vehicleType != "") && (t.registrationNumber != "")

/-- C6: a vehicle entry is complete iff both its type and registration are
non-empty; the load capacity is not consulted, so changing it to any value
(0 included) never changes completeness. -/
theorem isTruckComplete_iff_and_capacity_irrelevant (t : Truck) :
    (isTruckComplete (some t) = true
      ↔ (t.vehicleType ≠ "" ∧ t.registrationNumber ≠ ""))
    ∧ (∀ c : Int,
        isTruckComplete (some { t with loadCapacity := c }) = isTruckComplete (some t)) := by
  constructor
  · simp [isTruckComplete]
  · intro c; rfl

/-! ### Admin dashboard (Index.tsx lines 1747-1889) -/

/-- `ApplicationStatus` of the admin dashboard:
`"pending" | "in_review" | "approved" | "rejected"`. -/
inductive ApplicationStatus where
  | pending
  | in_review
  | approved
  | rejected
deriving Repr, DecidableEq, Fintype

/-- Rendering of a status back to its wire string (used when serializing). -/
def statusString : ApplicationStatus → String
  | .pending => "pending"
  | .in_review => "in_review"
  | .approved => "approved"
  | .rejected => "rejected"

/-- The `Application` row type of the admin dashboard. The open-ended
`payload` JSON document is omitted: none of the modelled operations reads it. -/
structure Application where
  id : String
  user_id : Option String
  applicant_name : Option String
  email : Option String
  phone : Option String
  status : ApplicationStatus
  submitted_at : String
  updated_at : String
deriving Repr, DecidableEq

/-- The `selected` state: a JS object mapping row id to boolean, modelled as
an association list in key-insertion order (JS object keys are unique and
iterate in insertion order). -/
abbrev SelMap := List (String × Bool)

/-- `selectedIds = Object.keys(selected).filter((k) => selected[k])`. -/
def selectedIds (selected : SelMap) : List String :=
  (selected.filter fun p => p.2).map Prod.fst

/-- `!!selected[id]`: a missing key is read as `undefined`, hence false. -/
def lookupSel (m : SelMap) (id : String) : Bool :=
  ((m.find? fun p => p.1 == id).map Prod.snd).getD false

/-- `toggleSelectAll(checked)` builds a fresh object `next` with one entry per
currently-displayed row (`(data || []).forEach((a) => (next[a.id] = checked))`)
and replaces the selection with it wholesale (`setSelected(next)`). -/
def toggleSelectAll (data : List Application) (checked : Bool) : SelMap :=
  data.map fun a => (a.id, checked)

/-- The per-row checkbox handler
`setSelected((prev) => ({ ...prev, [a.id]: Boolean(c) }))`: a merge that
overwrites the entry for `id` when present (keeping its position) and appends
it otherwise, preserving every other entry. -/
def setRowSelected (prev : SelMap) (id : String) (c : Bool) : SelMap :=
  if prev.any fun p => p.1 == id then
    prev.map fun p => if p.1 == id then (p.1, c) else p
  else prev ++ [(id, c)]

/-- Observable outcome of one `bulkUpdateStatus` invocation: the backend
update calls issued (status together with the id list passed to
`.in("id", selectedIds)`), the resulting selection state, and whether
`refetch()` was triggered. The backend call outcome is an explicit input. -/
structure BulkUpdateOutcome where
  calls : List (ApplicationStatus × List String)
  selected : SelMap
  refetched : Bool
deriving Repr, DecidableEq

/-- `bulkUpdateStatus(newStatus)` from the admin dashboard:
`if (selectedIds.length === 0) return;` then one update call constrained to
`selectedIds`; on error the selection is left as it was and no refetch
happens; on success `setSelected({})` and `refetch()`. -/
def bulkUpdateStatus (selected : SelMap) (newStatus : ApplicationStatus)
    (updateSucceeds : Bool) : BulkUpdateOutcome :=
  if (selectedIds selected).length = 0 then
    { calls := [], selected := selected, refetched := false }
  else if updateSucceeds then
    { calls := [(newStatus, selectedIds selected)], selected := [], refetched := true }
  else
    { calls := [(newStatus, selectedIds selected)], selected := selected, refetched := false }

/-- C7: with a non-empty selected-id set, `bulkUpdateStatus` issues exactly one
update call constrained to exactly those ids; on success the selection becomes
empty and a refetch is triggered; on failure the selection is left exactly as
it was and no refetch happens; with an empty selected-id set no call is
issued. -/
theorem bulkUpdateStatus_spec (m : SelMap) (ns : ApplicationStatus) (ok : Bool) :
    ((selectedIds m).length ≠ 0 →
      (bulkUpdateStatus m ns ok).calls = [(ns, selectedIds m)]
      ∧ (ok = true →
          (bulkUpdateStatus m ns ok).selected = [] ∧ (bulkUpdateStatus m ns ok).refetched = true)
      ∧ (ok = false →
          (bulkUpdateStatus m ns ok).selected = m ∧ (bulkUpdateStatus m ns ok).refetched = false))
    ∧ ((selectedIds m).length = 0 → (bulkUpdateStatus m ns ok).calls = []) := by
  unfold bulkUpdateStatus
  split_ifs with h1 h2 <;> simp_all

/-- Witness for C7: approving the three selected ids "a", "b", "c" issues one
call constrained to exactly those three ids and, on success, empties the
selection; with nothing selected, no call is issued. -/
theorem bulkUpdateStatus_spec_witness :
    ((bulkUpdateStatus [("a", true), ("b", true), ("c", true)] .approved true).calls
        = [(.approved, ["a", "b", "c"])]
      ∧ (bulkUpdateStatus [("a", true), ("b", true), ("c", true)] .approved true).selected = [])
    ∧ ((bulkUpdateStatus [("a", true), ("b", true), ("c", true)] .approved false).selected
        = [("a", true), ("b", true), ("c", true)])
    ∧ (bulkUpdateStatus [("a", false)] .approved true).calls = [] :=
  ⟨⟨((bulkUpdateStatus_spec [("a", true), ("b", true), ("c", true)] .approved true).1
      (by decide)).1,
    (((bulkUpdateStatus_spec [("a", true), ("b", true), ("c", true)] .approved true).1
      (by decide)).2.1 rfl).1⟩,
   (((bulkUpdateStatus_spec [("a", true), ("b", true), ("c", true)] .approved false).1
      (by decide)).2.2 rfl).1,
   (bulkUpdateStatus_spec [("a", false)] .approved true).2 (by decide)⟩

/-! ### Sort toggling (`toggleSort`, Index.tsx lines 1887-1889) -/

/-- Sortable columns: `"submitted_at" | "applicant_name" | "email"`. -/
inductive SortField where
  | submitted_at
  | applicant_name
  | email
deriving Repr, DecidableEq, Fintype

/-- Sort directions `"asc" | "desc"`. -/
inductive SortDir where
  | asc
  | desc
deriving Repr, DecidableEq, Fintype

/-- The `Sort` state `{ field, dir }` of the admin dashboard (named
`SortState` here because `Sort` is reserved in Lean). -/
structure SortState where
  field : SortField
  dir : SortDir
deriving Repr, DecidableEq, Fintype

/-- `toggleSort(field)`:
`setSort((s) => ({ field, dir: s.field === field && s.dir === "desc" ? "asc" : "desc" }))`. -/
def toggleSort (s : SortState) (f : SortField) : SortState :=
  { field := f,
    dir := if s.field = f ∧ s.dir = SortDir.desc then SortDir.asc else SortDir.desc }

/-- C8: toggling the currently sorted column twice returns the sort state to
its original direction (indeed to the original state), and toggling a column
different from the current sort field yields that field with direction
descending. -/
theorem toggleSort_spec (s : SortState) (f : SortField) :
    (toggleSort (toggleSort s s.field) (toggleSort s s.field).field = s)
    ∧ (f ≠ s.field → toggleSort s f = { field := f, dir := SortDir.desc }) := by
  revert s f
  decide

/-- Witness for C8: starting from descending submitted-time sort, toggling the
name column (a different field) yields name/descending. -/
theorem toggleSort_spec_witness :
    toggleSort { field := SortField.submitted_at, dir := SortDir.desc }
        SortField.applicant_name
      = { field := SortField.applicant_name, dir := SortDir.desc } :=
  (toggleSort_spec { field := SortField.submitted_at, dir := SortDir.desc }
    SortField.applicant_name).2 (by decide)

/-! ### CSV export (`exportCSV`, Index.tsx lines 1863-1885) -/

/-- The fixed default field list
`{ id: "", applicant_name: "", email: "", phone: "", status: "", submitted_at: "" }`
whose keys form the header when there are no rows. -/
def csvDefaultFields : List String :=
  ["id", "applicant_name", "email", "phone", "status", "submitted_at"]

/-- The per-row object built by `exportCSV`'s `rows` map, as an ordered
key/value list (JS object keys iterate in insertion order). -/
def csvRow (a : Application) : List (String × String) :=
  [("id", a.id),
   ("applicant_name", a.applicant_name.getD ""),
   ("email", a.email.getD ""),
   ("phone", a.phone.getD ""),
   ("status", statusString a.status),
   ("submitted_at", a.submitted_at)]

/-- `String(r[h]).replaceAll('"', '""')`: double every embedded quote. -/
def escapeCSVCell (s : String) : String :=
  s.replace "\"" "\"\""

/-- `exportCSV` (the CSV text it builds; the download plumbing is browser
glue): `header = Object.keys(rows[0] || defaultObject)`, then the header line
followed by one comma-joined line per row, all joined by newlines. -/
def exportCSV (data : List Application) : String :=
  let rows := data.map csvRow
  let header := (rows.headD (csvDefaultFields.map fun f => (f, ""))).map Prod.fst
  String.intercalate "\n"
    (String.intercalate "," header ::
      rows.map fun r =>
        String.intercalate ","
          (header.map fun h => escapeCSVCell (((r.find? fun p => p.1 == h).map Prod.snd).getD "")))

/-- C9: CSV export of an empty result set yields exactly the header line built
from the fixed field list, with no data rows after it (the output splits on
newline into that single line). -/
theorem exportCSV_empty :
    exportCSV [] = String.intercalate "," csvDefaultFields
    ∧ exportCSV [] = "id,applicant_name,email,phone,status,submitted_at"
    ∧ (exportCSV []).data.contains '\n' = false := by
  refine ⟨rfl, rfl, ?_⟩
  decide

/-! ### Select-all versus per-row selection (C10) -/

theorem lookupSel_nil (id : String) : lookupSel [] id = false := rfl

theorem lookupSel_cons (p : String × Bool) (rest : SelMap) (id : String) :
    lookupSel (p :: rest) id = if p.1 == id then p.2 else lookupSel rest id := by
  by_cases h : (p.1 == id) = true
  · have hf : List.find? (fun q => q.1 == id) (p :: rest) = some p :=
      List.find?_cons_of_pos rest h
    rw [lookupSel, hf, if_pos h]
    rfl
  · have hf : List.find? (fun q => q.1 == id) (p :: rest)
        = List.find? (fun q => q.1 == id) rest :=
      List.find?_cons_of_neg rest h
    rw [lookupSel, hf, if_neg h]
    rfl

theorem lookupSel_map_const (data : List Application) (checked : Bool) (id : String)
    (h : id ∈ data.map Application.id) :
    lookupSel (data.map fun a => (a.id, checked)) id = checked := by
  induction data with
  | nil => simp at h
  | cons a rest ih =>
    rw [List.map_cons, lookupSel_cons]
    by_cases ha : (a.id == id) = true
    · rw [if_pos ha]
    · rw [if_neg ha]
      apply ih
      simp only [List.map_cons, List.mem_cons] at h
      rcases h with h | h
      · exact absurd (by rw [beq_iff_eq]; exact h.symm) ha
      · exact h

theorem lookupSel_map_const_absent (data : List Application) (checked : Bool) (id : String)
    (h : id ∉ data.map Application.id) :
    lookupSel (data.map fun a => (a.id, checked)) id = false := by
  induction data with
  | nil => exact lookupSel_nil id
  | cons a rest ih =>
    simp only [List.map_cons, List.mem_cons, not_or] at h
    have ha : (a.id == id) = false := beq_eq_false_iff_ne.mpr fun hh => h.1 hh.symm
    rw [List.map_cons, lookupSel_cons, if_neg (by simp [ha])]
    exact ih h.2

theorem lookupSel_map_update (prev : SelMap) (id idX : String) (c : Bool) (h : idX ≠ id) :
    lookupSel (prev.map fun p => if p.1 == id then (p.1, c) else p) idX = lookupSel prev idX := by
  induction prev with
  | nil => rfl
  | cons p rest ih =>
    rw [List.map_cons, lookupSel_cons, lookupSel_cons]
    have hfst : (if p.1 == id then (p.1, c) else p).1 = p.1 := by
      by_cases hp : (p.1 == id) = true <;> simp [hp]
    rw [hfst]
    by_cases hx : (p.1 == idX) = true
    · rw [if_pos hx, if_pos hx]
      have hp : (p.1 == id) = false := by
        rw [beq_eq_false_iff_ne]
        rw [beq_iff_eq] at hx
        rw [hx]
        exact fun hh => h hh
      rw [if_neg (by simp [hp])]
    · rw [if_neg hx, if_neg hx]
      exact ih

theorem lookupSel_append_single (prev : SelMap) (id idX : String) (c : Bool) (h : idX ≠ id) :
    lookupSel (prev ++ [(id, c)]) idX = lookupSel prev idX := by
  induction prev with
  | nil =>
    have hne : (id == idX) = false := beq_eq_false_iff_ne.mpr fun hh => h hh.symm
    rw [List.nil_append, lookupSel_cons]
    simp [hne, lookupSel_nil]
  | cons p rest ih =>
    rw [List.cons_append, lookupSel_cons, lookupSel_cons]
    by_cases hx : (p.1 == idX) = true
    · rw [if_pos hx, if_pos hx]
    · rw [if_neg hx, if_neg hx]
      exact ih

theorem lookupSel_setRow_other (prev : SelMap) (id idX : String) (c : Bool)
    (h : idX ≠ id) :
    lookupSel (setRowSelected prev id c) idX = lookupSel prev idX := by
  unfold setRowSelected
  split_ifs with hmem
  · exact lookupSel_map_update prev id idX c h
  · exact lookupSel_append_single prev id idX c h

/-- C10: select-all (with either checked value) replaces the selection map
wholesale: its keys are exactly the ids of the currently-displayed rows, every
displayed id maps to the checked value, and every id not in the displayed set
reads as unselected regardless of the prior map (which select-all never
consults); per-row toggling instead merges, preserving the entry of every
other id. -/
theorem toggleSelectAll_spec (prev : SelMap) (data : List Application)
    (checked : Bool) (id : String) :
    ((toggleSelectAll data checked).map Prod.fst = data.map Application.id)
    ∧ (id ∈ data.map Application.id →
        lookupSel (toggleSelectAll data checked) id = checked)
    ∧ (id ∉ data.map Application.id →
        lookupSel (toggleSelectAll data checked) id = false)
    ∧ (∀ idX, idX ≠ id →
        lookupSel (setRowSelected prev id checked) idX = lookupSel prev idX) := by
  refine ⟨?_, lookupSel_map_const data checked id, lookupSel_map_const_absent data checked id,
    fun idX hne => lookupSel_setRow_other prev id idX checked hne⟩
  simp [toggleSelectAll, List.map_map]

/-- Witness for C10: with row ids ["a", "b"] displayed and a stale selection
of "z", select-all(true) selects "a" and leaves "z" unselected, while a
per-row toggle of "a" preserves the stale "z" entry. -/
theorem toggleSelectAll_spec_witness :
    (lookupSel (toggleSelectAll
        [{ id := "a", user_id := none, applicant_name := none, email := none, phone := none,
           status := .pending, submitted_at := "", updated_at := "" }] true) "a" = true)
    ∧ (lookupSel (toggleSelectAll
        [{ id := "a", user_id := none, applicant_name := none, email := none, phone := none,
           status := .pending, submitted_at := "", updated_at := "" }] true) "z" = false)
    ∧ lookupSel (setRowSelected [("z", true)] "a" true) "z" = lookupSel [("z", true)] "z" :=
  ⟨((toggleSelectAll_spec []
      [{ id := "a", user_id := none, applicant_name := none, email := none, phone := none,
         status := .pending, submitted_at := "", updated_at := "" }] true "a").2.1 (by decide)),
   ((toggleSelectAll_spec []
      [{ id := "a", user_id := none, applicant_name := none, email := none, phone := none,
         status := .pending, submitted_at := "", updated_at := "" }] true "z").2.2.1 (by decide)),
   ((toggleSelectAll_spec [("z", true)]
      [{ id := "a", user_id := none, applicant_name := none, email := none, phone := none,
         status := .pending, submitted_at := "", updated_at := "" }] true "a").2.2.2 "z"
      (by decide))⟩

end LopeOnboard
